import Mathlib

/-!
Shallow embedding of the `pool_state_arena` state-ingestion pipeline:
the framed-stream Unix socket client (`socket_client.rs`), the event
processor (`event_processor.rs`) and phase 3 of the startup coordinator
(`startup_coordinator.rs`), together with theorems about their behaviour.

Bytes are modelled as natural numbers, machine integers as `Nat`/`Int`
(no arithmetic in the embedded code paths overflows machine widths), and
fallible operations return `Except`.  Logging calls are modelled as
explicit warning outputs where a claim refers to them.
-/

/-! ### Framing layer of `UnixSocketClient::read_and_process` -/

/-- The length prefix read in `read_and_process`:
`u32::from_le_bytes([buf[0], buf[1], buf[2], buf[3]])`.
Returns 0 when fewer than four bytes are available (the caller checks the
length first, so that branch is never reached on the Rust side). -/
def frameLen : List Nat → Nat
  | b0 :: b1 :: b2 :: b3 :: _ => b0 + 256 * b1 + 65536 * b2 + 16777216 * b3
  | _ => 0

/-- The frame-peeling loop body of `read_and_process`, with explicit fuel
bounding the number of iterations.  Each iteration removes at least four
bytes from the buffer, so `buf.length` units of fuel always suffice
(see `peel`).  Returns the complete frame payloads peeled off, in order,
and the remaining buffer (a partial frame or fewer than four bytes). -/
def peelGo : Nat → List Nat → List (List Nat) × List Nat
  | 0, b => ([], b)
  | fuel + 1, b =>
    if b.length < 4 then ([], b)
    else if b.length < 4 + frameLen b then ([], b)
    else
      (((b.drop 4).take (frameLen b)) ::
          (peelGo fuel (b.drop (4 + frameLen b))).1,
        (peelGo fuel (b.drop (4 + frameLen b))).2)

/-- The frame-peeling loop of `read_and_process`: peel as many complete
`[len:u32 LE][payload]` frames as the buffer holds. -/
def peel (b : List Nat) : List (List Nat) × List Nat :=
  peelGo b.length b

/-- Little-endian 4-byte encoding of a `u32` length prefix. -/
def le32 (n : Nat) : List Nat :=
  [n % 256, n / 256 % 256, n / 65536 % 256, n / 16777216 % 256]

/-- A single wire frame: `[len:u32 little-endian][payload: len bytes]`. -/
def encodeFrame (p : List Nat) : List Nat :=
  le32 p.length ++ p

/-- A concatenation of wire frames. -/
def encodeFrames (ps : List (List Nat)) : List Nat :=
  (ps.map encodeFrame).flatten

/-- Successive socket reads: each chunk of bytes is appended to the
internal read buffer (`read_buffer.extend_from_slice`) and then the frame
loop peels off as many complete frames as are present.  Returns all peeled
payloads in order and the final buffer contents. -/
def feedAll (buf : List Nat) : List (List Nat) → List (List Nat) × List Nat
  | [] => ([], buf)
  | c :: cs =>
    ((peel (buf ++ c)).1 ++ (feedAll (peel (buf ++ c)).2 cs).1,
      (feedAll (peel (buf ++ c)).2 cs).2)

/-! ### Socket messages and the block state machine -/

/-- Modelled from the spec: the `PoolEvent` record of `socket_messages.rs`
(that file is not part of the repository snapshot; only its users are).
Field list follows the spec data-model table; byte-array identifiers are
abstracted to `Nat` values, signed quantities to `Int`. -/
structure PoolEvent where
  block_number : Nat
  transaction_index : Nat
  log_index : Nat
  protocol : String
  event_type : String
  pool_address : Nat
  pool_id : Option Nat
  amount0 : Int
  amount1 : Int
  sqrt_price_x96 : Option Nat
  tick : Option Int
  liquidity : Option Nat
  tick_lower : Option Int
  tick_upper : Option Int
  liquidity_delta : Option Int
  is_revert : Bool
deriving DecidableEq

/-- Modelled from the spec: the `SocketMessage` enum of
`socket_messages.rs` (not in the repository snapshot). -/
inductive SocketMessage
  | BeginBlock (block_number : Nat) (is_revert : Bool)
  | PoolUpdate (event : PoolEvent)
  | EndBlock (block_number : Nat) (num_updates : Nat)
deriving DecidableEq

/-- `SocketClientError` from `socket_client.rs`. -/
inductive SocketClientError
  | Connection (msg : String)
  | IoErr (msg : String)
  | Deserialization (msg : String)
  | InvalidMessage (msg : String)
  | BufferOverflow (capacity attempted : Nat)
deriving DecidableEq

/-- `ClientMode` from `socket_client.rs`. -/
inductive ClientMode
  | Buffering (capacity : Nat)
  | Live
deriving DecidableEq

/-- The two `log::warn!` sites of `handle_message`, modelled as explicit
outputs. -/
inductive ClientWarning
  | BeginBlockWhileInBlock (current_block : Nat)
  | EndBlockCountMismatch (expected got : Nat)
deriving DecidableEq

/-- The in-memory state of `UnixSocketClient` (socket handle, path and
reconnect configuration omitted: no claim concerns them; the byte-level
`read_buffer` is treated separately by the framing layer above). -/
structure UnixSocketClient where
  mode : ClientMode
  event_buffer : List PoolEvent
  earliest_buffered_block : Option Nat
  latest_buffered_block : Option Nat
  current_block_number : Option Nat
  pending_updates : List PoolEvent
deriving DecidableEq

/-- `UnixSocketClient::handle_message`.  Returns the updated client,
warnings emitted, and either an error or the optional completed batch.
Error returns leave the state exactly as the Rust early returns do
(in particular the buffer-overflow arm has already cleared the pending
block before failing, as in the source). -/
def handle_message (c : UnixSocketClient) (m : SocketMessage) :
    UnixSocketClient × List ClientWarning ×
      Except SocketClientError (Option (List PoolEvent)) :=
  match m with
  | .BeginBlock block_number _is_revert =>
    let ws := match c.current_block_number with
      | some cur => [ClientWarning.BeginBlockWhileInBlock cur]
      | none => []
    ({ c with current_block_number := some block_number, pending_updates := [] },
      ws, .ok none)
  | .PoolUpdate event =>
    match c.current_block_number with
    | none =>
      (c, [], .error (.InvalidMessage "Received PoolUpdate without BeginBlock"))
    | some cur =>
      if event.block_number ≠ cur then
        (c, [], .error (.InvalidMessage
          ("PoolUpdate block " ++ toString event.block_number ++
            " does not match current block " ++ toString cur)))
      else
        ({ c with pending_updates := c.pending_updates ++ [event] }, [], .ok none)
  | .EndBlock block_number num_updates =>
    match c.current_block_number with
    | none =>
      (c, [], .error (.InvalidMessage "Received EndBlock without BeginBlock"))
    | some cur =>
      if block_number ≠ cur then
        (c, [], .error (.InvalidMessage
          ("EndBlock block " ++ toString block_number ++
            " does not match current block " ++ toString cur)))
      else
        let ws := if c.pending_updates.length ≠ num_updates then
            [ClientWarning.EndBlockCountMismatch num_updates c.pending_updates.length]
          else []
        let events := c.pending_updates
        let c' := { c with pending_updates := [], current_block_number := none }
        match c'.mode with
        | .Buffering capacity =>
          if c'.event_buffer.length + events.length > capacity then
            (c', ws, .error (.BufferOverflow capacity
              (c'.event_buffer.length + events.length)))
          else
            ({ c' with
                earliest_buffered_block :=
                  match c'.earliest_buffered_block with
                  | none => some block_number
                  | some e => some e,
                latest_buffered_block := some block_number,
                event_buffer := c'.event_buffer ++ events },
              ws, .ok none)
        | .Live => (c', ws, .ok (some events))

/-- Combination of block-batch results inside the `read_and_process`
parse loop: `result` is overwritten each time a block completes, so the
last completed block wins. -/
def lastSome (r r' : Option (List PoolEvent)) : Option (List PoolEvent) :=
  match r' with
  | some v => some v
  | none => r

/-- The message-handling part of the `read_and_process` parse loop: the
messages decoded from the peeled frames are handled in order; an error
aborts the call (keeping all state changes made so far); otherwise the
result of the last completed block, if any, is returned. -/
def process_messages (c : UnixSocketClient) :
    List SocketMessage →
      UnixSocketClient × List ClientWarning ×
        Except SocketClientError (Option (List PoolEvent))
  | [] => (c, [], .ok none)
  | m :: rest =>
    match handle_message c m with
    | (c', ws, .error e) => (c', ws, .error e)
    | (c', ws, .ok r) =>
      match process_messages c' rest with
      | (c'', ws', .error e) => (c'', ws ++ ws', .error e)
      | (c'', ws', .ok r') => (c'', ws ++ ws', .ok (lastSome r r'))

/-- Modelled from the spec: the chronological order on `PoolEvent`
(`PoolEvent implements Ord for chronological sorting`; `socket_messages.rs`
is not in the repository snapshot).  Lexicographic on
`(block_number, transaction_index, log_index)`. -/
def evLe (a b : PoolEvent) : Prop :=
  a.block_number < b.block_number ∨
    (a.block_number = b.block_number ∧
      (a.transaction_index < b.transaction_index ∨
        (a.transaction_index = b.transaction_index ∧ a.log_index ≤ b.log_index)))

/-- Strict chronological order on `PoolEvent` keys. -/
def evLt (a b : PoolEvent) : Prop :=
  a.block_number < b.block_number ∨
    (a.block_number = b.block_number ∧
      (a.transaction_index < b.transaction_index ∨
        (a.transaction_index = b.transaction_index ∧ a.log_index < b.log_index)))

/-- The chronological sort key of a `PoolEvent`. -/
def evKey (e : PoolEvent) : Nat × Nat × Nat :=
  (e.block_number, e.transaction_index, e.log_index)

instance : DecidableRel evLe := fun a b => by
  unfold evLe; infer_instance

instance : DecidableRel evLt := fun a b => by
  unfold evLt; infer_instance

instance : IsTotal PoolEvent evLe :=
  ⟨by intro a b; unfold evLe; omega⟩

instance : IsTrans PoolEvent evLe :=
  ⟨by intro a b c; unfold evLe; omega⟩

/-- `UnixSocketClient::take_buffered_events`: move the buffer out, sort it
chronologically (the Rust `Vec::sort` is a stable sort by the `Ord` above;
a stable sort's output is unique, so insertion sort models it exactly),
and reset the block-range watermarks.  Returns the updated client and the
sorted events. -/
def take_buffered_events (c : UnixSocketClient) :
    UnixSocketClient × List PoolEvent :=
  ({ c with
      event_buffer := [],
      earliest_buffered_block := none,
      latest_buffered_block := none },
    List.insertionSort evLe c.event_buffer)

/-! ### Event processor (`event_processor.rs`) -/

/-- `PoolIdentifier` from `crate::protocol` (byte arrays abstracted). -/
inductive PoolIdentifier
  | Address (addr : Nat)
  | PoolId (pid : Nat)
deriving DecidableEq

/-- `EventProcessorError` from `event_processor.rs`. -/
inductive EventProcessorError
  | PoolNotFound (id : PoolIdentifier)
  | InvalidEventData (msg : String)
  | UnsupportedProtocol (msg : String)
  | UnsupportedEventType (msg : String)
  | ArenaRegistry (msg : String)
  | ArithmeticOverflow (msg : String)
deriving DecidableEq

/-- Modelled from the spec: a `PoolLocation` is a tier tag plus a dense
index within the tier arena (the registry crate is not in the snapshot). -/
structure PoolLocation where
  tier : Nat
  index : Nat
deriving DecidableEq

/-- Modelled from the spec: one admitted V2 pool in the registry, carrying
its constant-product reserves. -/
structure V2PoolEntry where
  address : Nat
  location : PoolLocation
  reserve0 : Int
  reserve1 : Int
deriving DecidableEq

/-- Modelled from the spec: the registry surface the event processor
consumes — `get_v2_pool_location`, `get_v3_pool_location`,
`get_v4_pool_location` (the registry crate is not in the snapshot). -/
structure PoolArenaRegistry where
  v2_pools : List V2PoolEntry
  v3_locations : List (Nat × PoolLocation)
  v4_locations : List (Nat × PoolLocation)
deriving DecidableEq

/-- `PoolArenaRegistry::get_v2_pool_location`. -/
def get_v2_pool_location (r : PoolArenaRegistry) (addr : Nat) :
    Option PoolLocation :=
  (r.v2_pools.find? (fun e => e.address == addr)).map (fun e => e.location)

/-- `PoolArenaRegistry::get_v3_pool_location`. -/
def get_v3_pool_location (r : PoolArenaRegistry) (addr : Nat) :
    Option PoolLocation :=
  (r.v3_locations.find? (fun e => e.1 == addr)).map (fun e => e.2)

/-- `PoolArenaRegistry::get_v4_pool_location`. -/
def get_v4_pool_location (r : PoolArenaRegistry) (pid : Nat) :
    Option PoolLocation :=
  (r.v4_locations.find? (fun e => e.1 == pid)).map (fun e => e.2)

/-- `EventProcessorStats` from `event_processor.rs`. -/
structure EventProcessorStats where
  v2_swaps_processed : Nat := 0
  v2_mints_processed : Nat := 0
  v2_burns_processed : Nat := 0
  v3_swaps_processed : Nat := 0
  v3_mints_processed : Nat := 0
  v3_burns_processed : Nat := 0
  v4_swaps_processed : Nat := 0
  v4_mints_processed : Nat := 0
  v4_burns_processed : Nat := 0
  v4_modify_liquidity_processed : Nat := 0
  reverts_processed : Nat := 0
  errors : Nat := 0
deriving DecidableEq

/-- `EventProcessor::process_v2_swap`.  The source resolves the pool
location and then only increments the statistic — the reserve update is
an unimplemented TODO, so no registry mutation occurs.  The registry is
therefore passed read-only throughout this embedding. -/
def process_v2_swap (s : EventProcessorStats) (reg : PoolArenaRegistry)
    (e : PoolEvent) : EventProcessorStats × Except EventProcessorError Unit :=
  match get_v2_pool_location reg e.pool_address with
  | none => (s, .error (.PoolNotFound (.Address e.pool_address)))
  | some _ =>
    ({ s with v2_swaps_processed := s.v2_swaps_processed + 1 }, .ok ())

/-- `EventProcessor::process_v2_mint` (reserve update is a TODO in the
source; only the statistic changes). -/
def process_v2_mint (s : EventProcessorStats) (_e : PoolEvent) :
    EventProcessorStats × Except EventProcessorError Unit :=
  ({ s with v2_mints_processed := s.v2_mints_processed + 1 }, .ok ())

/-- `EventProcessor::process_v2_burn` (reserve update is a TODO in the
source; only the statistic changes). -/
def process_v2_burn (s : EventProcessorStats) (_e : PoolEvent) :
    EventProcessorStats × Except EventProcessorError Unit :=
  ({ s with v2_burns_processed := s.v2_burns_processed + 1 }, .ok ())

/-- `EventProcessor::process_v2_event`. -/
def process_v2_event (s : EventProcessorStats) (reg : PoolArenaRegistry)
    (e : PoolEvent) : EventProcessorStats × Except EventProcessorError Unit :=
  if e.event_type = "Swap" then process_v2_swap s reg e
  else if e.event_type = "Mint" then process_v2_mint s e
  else if e.event_type = "Burn" then process_v2_burn s e
  else
    ({ s with errors := s.errors + 1 },
      .error (.UnsupportedEventType ("V2 " ++ e.event_type)))

/-- `EventProcessor::process_v3_swap`: required optional fields are
checked in source order, then the pool location is resolved; the state
update itself is a TODO in the source. -/
def process_v3_swap (s : EventProcessorStats) (reg : PoolArenaRegistry)
    (e : PoolEvent) : EventProcessorStats × Except EventProcessorError Unit :=
  match e.sqrt_price_x96 with
  | none => (s, .error (.InvalidEventData "Missing sqrt_price_x96"))
  | some _ =>
    match e.tick with
    | none => (s, .error (.InvalidEventData "Missing tick"))
    | some _ =>
      match e.liquidity with
      | none => (s, .error (.InvalidEventData "Missing liquidity"))
      | some _ =>
        match get_v3_pool_location reg e.pool_address with
        | none => (s, .error (.PoolNotFound (.Address e.pool_address)))
        | some _ =>
          ({ s with v3_swaps_processed := s.v3_swaps_processed + 1 }, .ok ())

/-- `EventProcessor::process_v3_mint` (no registry lookup in the source;
the tick update is a TODO). -/
def process_v3_mint (s : EventProcessorStats) (e : PoolEvent) :
    EventProcessorStats × Except EventProcessorError Unit :=
  match e.tick_lower with
  | none => (s, .error (.InvalidEventData "Missing tick_lower"))
  | some _ =>
    match e.tick_upper with
    | none => (s, .error (.InvalidEventData "Missing tick_upper"))
    | some _ =>
      match e.liquidity_delta with
      | none => (s, .error (.InvalidEventData "Missing liquidity_delta"))
      | some _ =>
        ({ s with v3_mints_processed := s.v3_mints_processed + 1 }, .ok ())

/-- `EventProcessor::process_v3_burn` (no registry lookup in the source;
the tick update is a TODO). -/
def process_v3_burn (s : EventProcessorStats) (e : PoolEvent) :
    EventProcessorStats × Except EventProcessorError Unit :=
  match e.tick_lower with
  | none => (s, .error (.InvalidEventData "Missing tick_lower"))
  | some _ =>
    match e.tick_upper with
    | none => (s, .error (.InvalidEventData "Missing tick_upper"))
    | some _ =>
      match e.liquidity_delta with
      | none => (s, .error (.InvalidEventData "Missing liquidity_delta"))
      | some _ =>
        ({ s with v3_burns_processed := s.v3_burns_processed + 1 }, .ok ())

/-- `EventProcessor::process_v3_event`. -/
def process_v3_event (s : EventProcessorStats) (reg : PoolArenaRegistry)
    (e : PoolEvent) : EventProcessorStats × Except EventProcessorError Unit :=
  if e.event_type = "Swap" then process_v3_swap s reg e
  else if e.event_type = "Mint" then process_v3_mint s e
  else if e.event_type = "Burn" then process_v3_burn s e
  else
    ({ s with errors := s.errors + 1 },
      .error (.UnsupportedEventType ("V3 " ++ e.event_type)))

/-- `EventProcessor::process_v4_swap`. -/
def process_v4_swap (s : EventProcessorStats) (reg : PoolArenaRegistry)
    (e : PoolEvent) : EventProcessorStats × Except EventProcessorError Unit :=
  match e.pool_id with
  | none => (s, .error (.InvalidEventData "Missing pool_id for V4"))
  | some pid =>
    match e.sqrt_price_x96 with
    | none => (s, .error (.InvalidEventData "Missing sqrt_price_x96"))
    | some _ =>
      match e.tick with
      | none => (s, .error (.InvalidEventData "Missing tick"))
      | some _ =>
        match e.liquidity with
        | none => (s, .error (.InvalidEventData "Missing liquidity"))
        | some _ =>
          match get_v4_pool_location reg pid with
          | none => (s, .error (.PoolNotFound (.PoolId pid)))
          | some _ =>
            ({ s with v4_swaps_processed := s.v4_swaps_processed + 1 }, .ok ())

/-- `EventProcessor::process_v4_modify_liquidity` (no registry lookup in
the source; the tick update is a TODO). -/
def process_v4_modify_liquidity (s : EventProcessorStats) (e : PoolEvent) :
    EventProcessorStats × Except EventProcessorError Unit :=
  match e.pool_id with
  | none => (s, .error (.InvalidEventData "Missing pool_id for V4"))
  | some _ =>
    match e.tick_lower with
    | none => (s, .error (.InvalidEventData "Missing tick_lower"))
    | some _ =>
      match e.tick_upper with
      | none => (s, .error (.InvalidEventData "Missing tick_upper"))
      | some _ =>
        match e.liquidity_delta with
        | none => (s, .error (.InvalidEventData "Missing liquidity_delta"))
        | some _ =>
          ({ s with
              v4_modify_liquidity_processed :=
                s.v4_modify_liquidity_processed + 1 }, .ok ())

/-- `EventProcessor::process_v4_event`. -/
def process_v4_event (s : EventProcessorStats) (reg : PoolArenaRegistry)
    (e : PoolEvent) : EventProcessorStats × Except EventProcessorError Unit :=
  if e.event_type = "Swap" then process_v4_swap s reg e
  else if e.event_type = "ModifyLiquidity" then process_v4_modify_liquidity s e
  else
    ({ s with errors := s.errors + 1 },
      .error (.UnsupportedEventType ("V4 " ++ e.event_type)))

/-- `EventProcessor::process_event`: revert events short-circuit with only
the revert counter incremented; otherwise dispatch on the protocol. -/
def process_event (s : EventProcessorStats) (reg : PoolArenaRegistry)
    (e : PoolEvent) : EventProcessorStats × Except EventProcessorError Unit :=
  if e.is_revert then
    ({ s with reverts_processed := s.reverts_processed + 1 }, .ok ())
  else if e.protocol = "uniswap_v2" then process_v2_event s reg e
  else if e.protocol = "uniswap_v3" then process_v3_event s reg e
  else if e.protocol = "uniswap_v4" then process_v4_event s reg e
  else
    ({ s with errors := s.errors + 1 },
      .error (.UnsupportedProtocol e.protocol))

/-- Which failures increment the `errors` statistic in the source: only
the two unsupported-routing arms do. -/
def errorsBump : EventProcessorError → Nat
  | .UnsupportedProtocol _ => 1
  | .UnsupportedEventType _ => 1
  | _ => 0

/-! ### Startup coordinator, phase 3 (`startup_coordinator.rs`) -/

/-- The slice of `StartupCoordinator` state that phase 3 touches. -/
structure StartupCoordinator where
  socket_client : UnixSocketClient
  scrape_reference_block : Option Nat
  events_buffered : Nat
  events_replayed : Nat
deriving DecidableEq

/-- `StartupCoordinator::phase_3_replay_events`: take the (sorted)
buffered events, filter to those strictly after the scrape reference
block (`unwrap_or(0)` when none was recorded), and apply the rest in
order.  `apply_event` is a stub returning `Ok` in the source, so every
retained event is applied and counted.  Returns the updated coordinator
state and the list of events passed to event application. -/
def phase_3_replay_events (st : StartupCoordinator) :
    StartupCoordinator × List PoolEvent :=
  let taken := take_buffered_events st.socket_client
  let reference_block := st.scrape_reference_block.getD 0
  let replayed := taken.2.filter (fun e => reference_block < e.block_number)
  ({ st with
      socket_client := taken.1,
      events_buffered := taken.2.length,
      events_replayed := replayed.length },
    replayed)

/-- A well-formed single-block message sequence as emitted upstream:
`BeginBlock`, the updates, then `EndBlock` carrying the update count. -/
def block_script (bn : Nat) (rv : Bool) (evs : List PoolEvent) :
    List SocketMessage :=
  .BeginBlock bn rv :: (evs.map .PoolUpdate ++ [.EndBlock bn evs.length])

/-- A sample event with the given chronological key, used for concrete
instantiations. -/
def sampleEvent (b t l : Nat) : PoolEvent :=
  { block_number := b
    transaction_index := t
    log_index := l
    protocol := "uniswap_v2"
    event_type := "Swap"
    pool_address := 1
    pool_id := none
    amount0 := -5
    amount1 := 5
    sqrt_price_x96 := none
    tick := none
    liquidity := none
    tick_lower := none
    tick_upper := none
    liquidity_delta := none
    is_revert := false }

/-! ### Framing lemmas -/

theorem peelGo_stuck (fuel : Nat) (b : List Nat)
    (h : b.length < 4 + frameLen b) : peelGo fuel b = ([], b) := by
  cases fuel with
  | zero => rfl
  | succ f =>
    simp only [peelGo]
    by_cases h4 : b.length < 4
    · simp [h4]
    · simp [h4, h]

theorem peelGo_step (fuel : Nat) (b : List Nat)
    (h : 4 + frameLen b ≤ b.length) :
    peelGo (fuel + 1) b =
      (((b.drop 4).take (frameLen b)) ::
          (peelGo fuel (b.drop (4 + frameLen b))).1,
        (peelGo fuel (b.drop (4 + frameLen b))).2) := by
  have h4 : ¬ b.length < 4 := by omega
  have h2 : ¬ b.length < 4 + frameLen b := by omega
  simp only [peelGo]
  simp [h4, h2]

theorem peelGo_congr : ∀ (f₁ : Nat) (b : List Nat) (f₂ : Nat),
    b.length ≤ 4 * f₁ → b.length ≤ 4 * f₂ → peelGo f₁ b = peelGo f₂ b := by
  intro f₁
  induction f₁ with
  | zero =>
    intro b f₂ h1 _
    have hb : b.length < 4 + frameLen b := by omega
    rw [peelGo_stuck 0 b hb, peelGo_stuck f₂ b hb]
  | succ f ih =>
    intro b f₂ h1 h2
    by_cases hs : b.length < 4 + frameLen b
    · rw [peelGo_stuck _ b hs, peelGo_stuck f₂ b hs]
    · push_neg at hs
      cases f₂ with
      | zero => exfalso; omega
      | succ g =>
        rw [peelGo_step f b hs, peelGo_step g b hs]
        have hd : (b.drop (4 + frameLen b)).length ≤ 4 * f := by
          simp only [List.length_drop]; omega
        have hd2 : (b.drop (4 + frameLen b)).length ≤ 4 * g := by
          simp only [List.length_drop]; omega
        rw [ih _ g hd hd2]

theorem peel_stuck (b : List Nat) (h : b.length < 4 + frameLen b) :
    peel b = ([], b) :=
  peelGo_stuck _ b h

theorem peel_step (b : List Nat) (h : 4 + frameLen b ≤ b.length) :
    peel b =
      (((b.drop 4).take (frameLen b)) ::
          (peel (b.drop (4 + frameLen b))).1,
        (peel (b.drop (4 + frameLen b))).2) := by
  obtain ⟨n, hn⟩ : ∃ n, b.length = n + 1 := ⟨b.length - 1, by omega⟩
  have hcongr : peelGo n (b.drop (4 + frameLen b)) =
      peelGo (b.drop (4 + frameLen b)).length (b.drop (4 + frameLen b)) :=
    peelGo_congr n _ _ (by simp only [List.length_drop]; omega)
      (by simp only [List.length_drop]; omega)
  show peelGo b.length b = _
  rw [hn, peelGo_step n b h, hcongr]
  rfl

theorem frameLen_append : ∀ (x y : List Nat), 4 ≤ x.length →
    frameLen (x ++ y) = frameLen x
  | _ :: _ :: _ :: _ :: _, _, _ => rfl
  | [], _, h => by simp at h
  | [_], _, h => by simp at h
  | [_, _], _, h => by simp at h
  | [_, _, _], _, h => by simp at h

theorem frameLen_le32 (n : Nat) (h : n < 4294967296) (y : List Nat) :
    frameLen (le32 n ++ y) = n := by
  simp only [le32, List.cons_append, List.nil_append, frameLen]
  omega

theorem peel_encode : ∀ (ps : List (List Nat)) (r : List Nat),
    (∀ p ∈ ps, p.length < 4294967296) →
    peel (encodeFrames ps ++ r) = (ps ++ (peel r).1, (peel r).2)
  | [], r, _ => by simp [encodeFrames]
  | p :: ps, r, h => by
    have hp : p.length < 4294967296 := h p (by simp)
    have hps : ∀ q ∈ ps, q.length < 4294967296 := fun q hq => h q (by simp [hq])
    have hB : encodeFrames (p :: ps) ++ r =
        le32 p.length ++ (p ++ (encodeFrames ps ++ r)) := by
      simp [encodeFrames, encodeFrame]
    have hlen : frameLen (encodeFrames (p :: ps) ++ r) = p.length := by
      rw [hB, frameLen_le32 p.length hp]
    have hlenB : (encodeFrames (p :: ps) ++ r).length =
        4 + (p.length + (encodeFrames ps ++ r).length) := by
      rw [hB]; simp only [le32, List.cons_append, List.nil_append,
        List.length_cons, List.length_append]; omega
    have hstep := peel_step (encodeFrames (p :: ps) ++ r)
      (by rw [hlen, hlenB]; omega)
    have hdrop4 : (encodeFrames (p :: ps) ++ r).drop 4 =
        p ++ (encodeFrames ps ++ r) := by
      rw [hB]
      have h4 : (le32 p.length).length = 4 := rfl
      rw [← h4, List.drop_left]
    have htake : (p ++ (encodeFrames ps ++ r)).take p.length = p :=
      List.take_left p _
    have hdropAll : (encodeFrames (p :: ps) ++ r).drop (4 + p.length) =
        encodeFrames ps ++ r := by
      rw [hB, ← List.append_assoc]
      have hl : (le32 p.length ++ p).length = 4 + p.length := by
        simp only [le32, List.length_append, List.length_cons, List.length_nil]
      rw [← hl, List.drop_left]
    rw [hstep, hlen, hdrop4, htake, hdropAll, peel_encode ps r hps]
    simp

theorem peel_snd_stuck (b : List Nat) :
    (peel b).2.length < 4 + frameLen (peel b).2 := by
  generalize hn : b.length = n
  induction n using Nat.strong_induction_on generalizing b with
  | _ n ih =>
    by_cases hs : b.length < 4 + frameLen b
    · rw [peel_stuck b hs]; exact hs
    · push_neg at hs
      rw [peel_step b hs]
      exact ih (b.drop (4 + frameLen b)).length
        (by simp only [List.length_drop]; omega) _ rfl

theorem peel_append (x y : List Nat) :
    peel (x ++ y) =
      ((peel x).1 ++ (peel ((peel x).2 ++ y)).1,
        (peel ((peel x).2 ++ y)).2) := by
  generalize hn : x.length = n
  induction n using Nat.strong_induction_on generalizing x with
  | _ n ih =>
    by_cases hs : x.length < 4 + frameLen x
    · rw [peel_stuck x hs]; simp
    · push_neg at hs
      have h4 : 4 ≤ x.length := by omega
      have hfl : frameLen (x ++ y) = frameLen x := frameLen_append x y h4
      have hsxy : 4 + frameLen (x ++ y) ≤ (x ++ y).length := by
        rw [hfl]; simp only [List.length_append]; omega
      have hdrop4 : (x ++ y).drop 4 = x.drop 4 ++ y :=
        List.drop_append_of_le_length h4
      have htake : (x.drop 4 ++ y).take (frameLen x) = (x.drop 4).take (frameLen x) :=
        List.take_append_of_le_length (by simp only [List.length_drop]; omega)
      have hdropAll : (x ++ y).drop (4 + frameLen x) =
          x.drop (4 + frameLen x) ++ y :=
        List.drop_append_of_le_length (by omega)
      rw [peel_step (x ++ y) hsxy, peel_step x hs, hfl, hdrop4, htake, hdropAll,
        ih (x.drop (4 + frameLen x)).length
          (by simp only [List.length_drop]; omega) _ rfl]
      simp

theorem feedAll_eq_peel : ∀ (cs : List (List Nat)) (buf : List Nat),
    buf.length < 4 + frameLen buf →
    feedAll buf cs = peel (buf ++ cs.flatten)
  | [], buf, h => by
    simp [feedAll, peel_stuck buf h]
  | c :: cs, buf, h => by
    have hsnd := peel_snd_stuck (buf ++ c)
    have hrec := feedAll_eq_peel cs (peel (buf ++ c)).2 hsnd
    have happ := peel_append (buf ++ c) cs.flatten
    simp only [feedAll, hrec, List.flatten_cons, ← List.append_assoc, happ]

/-- C1: For every byte sequence that is a valid concatenation of N
length-prefixed frames, feeding it to the client's read-and-process loop
in any chunking (including one byte at a time) yields exactly the same N
`SocketMessage`s in the same order (partial frames being retained in the
internal read buffer between reads), and the read buffer is empty at the
end. -/
theorem framing_chunk_boundary_independent
    (ps cs : List (List Nat))
    (hlen : ∀ p ∈ ps, p.length < 4294967296)
    (hjoin : cs.flatten = encodeFrames ps) :
    (feedAll [] cs).1 = ps ∧ (feedAll [] cs).2 = [] ∧
      ∀ decode : List Nat → SocketMessage,
        (feedAll [] cs).1.map decode = ps.map decode := by
  have h0 : ([] : List Nat).length < 4 + frameLen [] := by
    simp [frameLen]
  have hfeed := feedAll_eq_peel cs [] h0
  have henc := peel_encode ps [] hlen
  have hnil : peel ([] : List Nat) = ([], []) := peel_stuck [] h0
  rw [hnil] at henc
  simp only [List.append_nil] at henc
  rw [List.nil_append, hjoin, henc] at hfeed
  refine ⟨?_, ?_, ?_⟩
  · rw [hfeed]
  · rw [hfeed]
  · intro decode; rw [hfeed]

/-- Witness for C1: the two frames with payloads `[7]` and `[8, 9]`, fed
one byte at a time, are reassembled exactly. -/
theorem framing_chunk_boundary_independent_witness :
    (feedAll [] [[1], [0], [0], [0], [7], [2], [0], [0], [0], [8], [9]]).1 =
        [[7], [8, 9]] ∧
      (feedAll [] [[1], [0], [0], [0], [7], [2], [0], [0], [0], [8], [9]]).2 = [] :=
  ⟨(framing_chunk_boundary_independent [[7], [8, 9]] _
      (by decide) (by decide)).1,
    (framing_chunk_boundary_independent [[7], [8, 9]] _
      (by decide) (by decide)).2.1⟩

/-! ### Block state machine lemmas -/

theorem hm_begin (c : UnixSocketClient) (bn : Nat) (rv : Bool) :
    handle_message c (.BeginBlock bn rv) =
      ({ c with current_block_number := some bn, pending_updates := [] },
        (match c.current_block_number with
          | some cur => [ClientWarning.BeginBlockWhileInBlock cur]
          | none => []),
        .ok none) := rfl

theorem hm_update_idle (c : UnixSocketClient) (e : PoolEvent)
    (hc : c.current_block_number = none) :
    handle_message c (.PoolUpdate e) =
      (c, [], .error (.InvalidMessage "Received PoolUpdate without BeginBlock")) := by
  simp [handle_message, hc]

theorem hm_update_mismatch (c : UnixSocketClient) (cur : Nat) (e : PoolEvent)
    (hc : c.current_block_number = some cur) (hne : e.block_number ≠ cur) :
    handle_message c (.PoolUpdate e) =
      (c, [], .error (.InvalidMessage
        ("PoolUpdate block " ++ toString e.block_number ++
          " does not match current block " ++ toString cur))) := by
  simp [handle_message, hc, hne]

theorem hm_update_match (c : UnixSocketClient) (cur : Nat) (e : PoolEvent)
    (hc : c.current_block_number = some cur) (he : e.block_number = cur) :
    handle_message c (.PoolUpdate e) =
      ({ c with pending_updates := c.pending_updates ++ [e] }, [], .ok none) := by
  simp [handle_message, hc, he]

theorem hm_end_idle (c : UnixSocketClient) (bn n : Nat)
    (hc : c.current_block_number = none) :
    handle_message c (.EndBlock bn n) =
      (c, [], .error (.InvalidMessage "Received EndBlock without BeginBlock")) := by
  simp [handle_message, hc]

theorem hm_end_mismatch (c : UnixSocketClient) (cur bn n : Nat)
    (hc : c.current_block_number = some cur) (hne : bn ≠ cur) :
    handle_message c (.EndBlock bn n) =
      (c, [], .error (.InvalidMessage
        ("EndBlock block " ++ toString bn ++
          " does not match current block " ++ toString cur))) := by
  simp [handle_message, hc, hne]

theorem hm_end_live (c : UnixSocketClient) (cur n : Nat)
    (hc : c.current_block_number = some cur) (hm : c.mode = .Live) :
    handle_message c (.EndBlock cur n) =
      ({ c with pending_updates := [], current_block_number := none },
        (if c.pending_updates.length ≠ n then
          [ClientWarning.EndBlockCountMismatch n c.pending_updates.length]
         else []),
        .ok (some c.pending_updates)) := by
  simp [handle_message, hc, hm]

theorem hm_end_buffering_ok (c : UnixSocketClient) (cur n C : Nat)
    (hc : c.current_block_number = some cur) (hm : c.mode = .Buffering C)
    (hcap : c.event_buffer.length + c.pending_updates.length ≤ C) :
    handle_message c (.EndBlock cur n) =
      ({ c with
          pending_updates := [],
          current_block_number := none,
          earliest_buffered_block :=
            (match c.earliest_buffered_block with
              | none => some cur
              | some e => some e),
          latest_buffered_block := some cur,
          event_buffer := c.event_buffer ++ c.pending_updates },
        (if c.pending_updates.length ≠ n then
          [ClientWarning.EndBlockCountMismatch n c.pending_updates.length]
         else []),
        .ok none) := by
  have hno : ¬ c.event_buffer.length + c.pending_updates.length > C := by omega
  simp [handle_message, hc, hm, hno]

theorem hm_end_buffering_overflow (c : UnixSocketClient) (cur n C : Nat)
    (hc : c.current_block_number = some cur) (hm : c.mode = .Buffering C)
    (hcap : C < c.event_buffer.length + c.pending_updates.length) :
    handle_message c (.EndBlock cur n) =
      ({ c with pending_updates := [], current_block_number := none },
        (if c.pending_updates.length ≠ n then
          [ClientWarning.EndBlockCountMismatch n c.pending_updates.length]
         else []),
        .error (.BufferOverflow C
          (c.event_buffer.length + c.pending_updates.length))) := by
  have hyes : c.event_buffer.length + c.pending_updates.length > C := hcap
  simp [handle_message, hc, hm, hyes]

theorem handle_message_mode (c : UnixSocketClient) (m : SocketMessage) :
    (handle_message c m).1.mode = c.mode := by
  cases m with
  | BeginBlock bn rv => rw [hm_begin]
  | PoolUpdate e =>
    cases hc : c.current_block_number with
    | none => rw [hm_update_idle c e hc]
    | some cur =>
      by_cases he : e.block_number = cur
      · rw [hm_update_match c cur e hc he]
      · rw [hm_update_mismatch c cur e hc he]
  | EndBlock bn n =>
    cases hc : c.current_block_number with
    | none => rw [hm_end_idle c bn n hc]
    | some cur =>
      by_cases hbn : bn = cur
      · subst hbn
        cases hmo : c.mode with
        | Live => rw [hm_end_live c bn n hc hmo]; exact hmo
        | Buffering C =>
          by_cases hcap : c.event_buffer.length + c.pending_updates.length ≤ C
          · rw [hm_end_buffering_ok c bn n C hc hmo hcap]; exact hmo
          · rw [hm_end_buffering_overflow c bn n C hc hmo (by omega)]; exact hmo
      · rw [hm_end_mismatch c cur bn n hc hbn]

theorem handle_message_buffer_bound (c : UnixSocketClient) (m : SocketMessage)
    (C : Nat) (hm : c.mode = .Buffering C) (hb : c.event_buffer.length ≤ C) :
    (handle_message c m).1.event_buffer.length ≤ C := by
  cases m with
  | BeginBlock bn rv => rw [hm_begin]; exact hb
  | PoolUpdate e =>
    cases hc : c.current_block_number with
    | none => rw [hm_update_idle c e hc]; exact hb
    | some cur =>
      by_cases he : e.block_number = cur
      · rw [hm_update_match c cur e hc he]; exact hb
      · rw [hm_update_mismatch c cur e hc he]; exact hb
  | EndBlock bn n =>
    cases hc : c.current_block_number with
    | none => rw [hm_end_idle c bn n hc]; exact hb
    | some cur =>
      by_cases hbn : bn = cur
      · subst hbn
        by_cases hcap : c.event_buffer.length + c.pending_updates.length ≤ C
        · rw [hm_end_buffering_ok c bn n C hc hm hcap]
          simpa using hcap
        · rw [hm_end_buffering_overflow c bn n C hc hm (by omega)]; exact hb
      · rw [hm_end_mismatch c cur bn n hc hbn]; exact hb

theorem process_messages_buffer_bound :
    ∀ (msgs : List SocketMessage) (c : UnixSocketClient) (C : Nat),
      c.mode = .Buffering C → c.event_buffer.length ≤ C →
      (process_messages c msgs).1.event_buffer.length ≤ C
  | [], _, _, _, hb => hb
  | m :: rest, c, C, hm, hb => by
    have h1 := handle_message_buffer_bound c m C hm hb
    have h2 := handle_message_mode c m
    simp only [process_messages]
    rcases hres : handle_message c m with ⟨c', ws, r⟩
    rw [hres] at h1 h2
    cases r with
    | error e => simpa using h1
    | ok r =>
      have hrec := process_messages_buffer_bound rest c' C (by rw [h2, hm]) h1
      dsimp only
      rcases hpm : process_messages c' rest with ⟨c'', ws', r'⟩
      rw [hpm] at hrec
      cases r' with
      | error e => simpa using hrec
      | ok r' => simpa using hrec

/-- C2: The block state machine behaves per the spec table: a PoolUpdate
or EndBlock received while Idle fails with InvalidMessage; a BeginBlock
received while InBlock starts a new block with an empty pending list and
emits a warning (not an error); a PoolUpdate or EndBlock whose block
number differs from the current block fails with InvalidMessage; a
matching EndBlock returns the client to Idle and commits the pending list
(returned to the caller in Live mode, appended to the buffer in Buffering
mode with room). -/
theorem handle_message_state_machine :
    (∀ (c : UnixSocketClient) (e : PoolEvent), c.current_block_number = none →
      handle_message c (.PoolUpdate e) =
        (c, [], .error (.InvalidMessage "Received PoolUpdate without BeginBlock"))) ∧
    (∀ (c : UnixSocketClient) (bn n : Nat), c.current_block_number = none →
      handle_message c (.EndBlock bn n) =
        (c, [], .error (.InvalidMessage "Received EndBlock without BeginBlock"))) ∧
    (∀ (c : UnixSocketClient) (cur bn : Nat) (rv : Bool),
      c.current_block_number = some cur →
      handle_message c (.BeginBlock bn rv) =
        ({ c with current_block_number := some bn, pending_updates := [] },
          [ClientWarning.BeginBlockWhileInBlock cur], .ok none)) ∧
    (∀ (c : UnixSocketClient) (cur : Nat) (e : PoolEvent),
      c.current_block_number = some cur → e.block_number ≠ cur →
      ∃ msg, handle_message c (.PoolUpdate e) =
        (c, [], .error (.InvalidMessage msg))) ∧
    (∀ (c : UnixSocketClient) (cur bn n : Nat),
      c.current_block_number = some cur → bn ≠ cur →
      ∃ msg, handle_message c (.EndBlock bn n) =
        (c, [], .error (.InvalidMessage msg))) ∧
    (∀ (c : UnixSocketClient) (cur n : Nat), c.current_block_number = some cur →
      (handle_message c (.EndBlock cur n)).1.current_block_number = none ∧
      (handle_message c (.EndBlock cur n)).1.pending_updates = [] ∧
      (c.mode = .Live →
        (handle_message c (.EndBlock cur n)).2.2 = .ok (some c.pending_updates)) ∧
      (∀ C, c.mode = .Buffering C →
        c.event_buffer.length + c.pending_updates.length ≤ C →
        (handle_message c (.EndBlock cur n)).1.event_buffer =
            c.event_buffer ++ c.pending_updates ∧
          (handle_message c (.EndBlock cur n)).2.2 = .ok none)) := by
  refine ⟨?_, ?_, ?_, ?_, ?_, ?_⟩
  · exact fun c e hc => hm_update_idle c e hc
  · exact fun c bn n hc => hm_end_idle c bn n hc
  · intro c cur bn rv hc
    rw [hm_begin, hc]
  · intro c cur e hc hne
    exact ⟨_, hm_update_mismatch c cur e hc hne⟩
  · intro c cur bn n hc hne
    exact ⟨_, hm_end_mismatch c cur bn n hc hne⟩
  · intro c cur n hc
    cases hmo : c.mode with
    | Live =>
      rw [hm_end_live c cur n hc hmo]
      refine ⟨rfl, rfl, fun _ => rfl, ?_⟩
      intro C hC
      exact absurd hC (by simp)
    | Buffering C =>
      by_cases hcap : c.event_buffer.length + c.pending_updates.length ≤ C
      · rw [hm_end_buffering_ok c cur n C hc hmo hcap]
        refine ⟨rfl, rfl, ?_, ?_⟩
        · intro hL
          exact absurd hL (by simp)
        · intro C' hC' _
          exact ⟨rfl, rfl⟩
      · rw [hm_end_buffering_overflow c cur n C hc hmo (by omega)]
        refine ⟨rfl, rfl, ?_, ?_⟩
        · intro hL
          exact absurd hL (by simp)
        · intro C' hC' hcap'
          injection hC' with hCC
          subst hCC
          exact absurd hcap' hcap

/-- Witness for C2: concrete instantiations of each arm of the state
machine table. -/
theorem handle_message_state_machine_witness :
    handle_message
        { mode := .Live, event_buffer := [], earliest_buffered_block := none,
          latest_buffered_block := none, current_block_number := none,
          pending_updates := [] }
        (.PoolUpdate (sampleEvent 3 0 0)) =
      ({ mode := .Live, event_buffer := [], earliest_buffered_block := none,
          latest_buffered_block := none, current_block_number := none,
          pending_updates := [] }, [],
        .error (.InvalidMessage "Received PoolUpdate without BeginBlock")) ∧
    handle_message
        { mode := .Live, event_buffer := [], earliest_buffered_block := none,
          latest_buffered_block := none, current_block_number := some 5,
          pending_updates := [sampleEvent 5 0 0] }
        (.BeginBlock 6 false) =
      ({ mode := .Live, event_buffer := [], earliest_buffered_block := none,
          latest_buffered_block := none, current_block_number := some 6,
          pending_updates := [] },
        [ClientWarning.BeginBlockWhileInBlock 5], .ok none) ∧
    (handle_message
        { mode := .Live, event_buffer := [], earliest_buffered_block := none,
          latest_buffered_block := none, current_block_number := some 5,
          pending_updates := [sampleEvent 5 0 0] }
        (.EndBlock 5 1)).2.2 = .ok (some [sampleEvent 5 0 0]) :=
  ⟨handle_message_state_machine.1 _ (sampleEvent 3 0 0) rfl,
    handle_message_state_machine.2.2.1 _ 5 6 false rfl,
    (handle_message_state_machine.2.2.2.2.2 _ 5 1 rfl).2.2.1 rfl⟩

/-- C3: An EndBlock commit in Buffering mode with capacity C appends the
pending events p to the buffer iff `|buffer| + |p| ≤ C`; otherwise the
commit fails with `BufferOverflow` carrying `capacity = C` and
`attempted = |buffer| + |p|` and leaves the buffer unchanged; and in any
Buffering-mode run the buffered event count never exceeds C. -/
theorem buffering_commit_bound :
    (∀ (c : UnixSocketClient) (C cur n : Nat), c.mode = .Buffering C →
      c.current_block_number = some cur →
      if c.event_buffer.length + c.pending_updates.length ≤ C then
        (handle_message c (.EndBlock cur n)).1.event_buffer =
            c.event_buffer ++ c.pending_updates ∧
          (handle_message c (.EndBlock cur n)).2.2 = .ok none
      else
        (handle_message c (.EndBlock cur n)).1.event_buffer = c.event_buffer ∧
          (handle_message c (.EndBlock cur n)).2.2 =
            .error (.BufferOverflow C
              (c.event_buffer.length + c.pending_updates.length))) ∧
    ∀ (msgs : List SocketMessage) (c : UnixSocketClient) (C : Nat),
      c.mode = .Buffering C → c.event_buffer.length ≤ C →
      (process_messages c msgs).1.event_buffer.length ≤ C := by
  constructor
  · intro c C cur n hm hc
    by_cases hcap : c.event_buffer.length + c.pending_updates.length ≤ C
    · rw [if_pos hcap, hm_end_buffering_ok c cur n C hc hm hcap]
      exact ⟨rfl, rfl⟩
    · rw [if_neg hcap, hm_end_buffering_overflow c cur n C hc hm (by omega)]
      exact ⟨rfl, rfl⟩
  · exact fun msgs c C hm hb => process_messages_buffer_bound msgs c C hm hb

/-- Witness for C3: the spec's overflow scenario — capacity 3, an
incoming block with 4 updates after 0 buffered events fails with
`BufferOverflow{3, 4}`; and a run of two one-update blocks under
capacity 2 stays within bound. -/
theorem buffering_commit_bound_witness :
    (handle_message
        { mode := .Buffering 3, event_buffer := [],
          earliest_buffered_block := none, latest_buffered_block := none,
          current_block_number := some 7,
          pending_updates := [sampleEvent 7 0 0, sampleEvent 7 0 1,
            sampleEvent 7 0 2, sampleEvent 7 0 3] }
        (.EndBlock 7 4)).2.2 = .error (.BufferOverflow 3 4) ∧
    (process_messages
        { mode := .Buffering 2, event_buffer := [],
          earliest_buffered_block := none, latest_buffered_block := none,
          current_block_number := none, pending_updates := [] }
        (block_script 1 false [sampleEvent 1 0 0] ++
          block_script 2 false [sampleEvent 2 0 0])).1.event_buffer.length ≤ 2 := by
  constructor
  · have h := buffering_commit_bound.1
      { mode := .Buffering 3, event_buffer := [],
        earliest_buffered_block := none, latest_buffered_block := none,
        current_block_number := some 7,
        pending_updates := [sampleEvent 7 0 0, sampleEvent 7 0 1,
          sampleEvent 7 0 2, sampleEvent 7 0 3] } 3 7 4 rfl rfl
    rw [if_neg (by decide)] at h
    exact h.2
  · exact buffering_commit_bound.2 _ _ 2 rfl (by decide)

theorem evLe_ne_lt (a b : PoolEvent) (hle : evLe a b)
    (hne : evKey a ≠ evKey b) : evLt a b := by
  unfold evLe at hle
  unfold evKey at hne
  unfold evLt
  by_cases h1 : a.block_number = b.block_number
  · by_cases h2 : a.transaction_index = b.transaction_index
    · have h3 : a.log_index ≠ b.log_index := fun h3 => hne (by rw [h1, h2, h3])
      omega
    · omega
  · omega

/-- C4 counterexample: a client state whose buffer holds two events with
the same `(block_number, transaction_index, log_index)` key.  The sorted
output repeats that key, so it is not strictly increasing; the claim's
universally quantified strict-increase property fails at this state. -/
theorem take_buffered_events_strict_counterexample :
    ¬ List.Pairwise evLt
      (take_buffered_events
        { mode := .Buffering 10,
          event_buffer := [sampleEvent 1 0 0, sampleEvent 1 0 0],
          earliest_buffered_block := some 1, latest_buffered_block := some 1,
          current_block_number := none, pending_updates := [] }).2 := by
  decide

/-- C4 amended: for every client state whose buffered events have
pairwise-distinct `(block_number, transaction_index, log_index)` keys,
`take_buffered_events` returns a permutation of the buffer that is
strictly increasing in that key, and afterwards the event buffer is empty
and both buffered-block watermarks are reset to none.  (Without the
distinct-key assumption the output is still sorted, but only
non-strictly.) -/
theorem take_buffered_events_sorted_of_distinct_keys (c : UnixSocketClient)
    (h : (c.event_buffer.map evKey).Nodup) :
    (take_buffered_events c).2.Perm c.event_buffer ∧
      List.Pairwise evLt (take_buffered_events c).2 ∧
      (take_buffered_events c).1.event_buffer = [] ∧
      (take_buffered_events c).1.earliest_buffered_block = none ∧
      (take_buffered_events c).1.latest_buffered_block = none := by
  have hperm : (take_buffered_events c).2.Perm c.event_buffer :=
    List.perm_insertionSort evLe c.event_buffer
  have hsorted : List.Pairwise evLe (take_buffered_events c).2 :=
    List.sorted_insertionSort evLe c.event_buffer
  have hmapperm : ((take_buffered_events c).2.map evKey).Perm
      (c.event_buffer.map evKey) := hperm.map evKey
  have hnodup : ((take_buffered_events c).2.map evKey).Nodup :=
    hmapperm.nodup_iff.mpr h
  have hpairne : List.Pairwise (fun a b => evKey a ≠ evKey b)
      (take_buffered_events c).2 := List.pairwise_map.mp hnodup
  refine ⟨hperm, ?_, rfl, rfl, rfl⟩
  exact (hsorted.and hpairne).imp (fun hab => evLe_ne_lt _ _ hab.1 hab.2)

/-- Witness for C4 amended: a two-event buffer with distinct keys comes
out strictly ordered with the buffer emptied. -/
theorem take_buffered_events_sorted_of_distinct_keys_witness :
    List.Pairwise evLt
        (take_buffered_events
          { mode := .Buffering 10,
            event_buffer := [sampleEvent 2 0 0, sampleEvent 1 0 0],
            earliest_buffered_block := some 1, latest_buffered_block := some 2,
            current_block_number := none, pending_updates := [] }).2 ∧
      (take_buffered_events
        { mode := .Buffering 10,
          event_buffer := [sampleEvent 2 0 0, sampleEvent 1 0 0],
          earliest_buffered_block := some 1, latest_buffered_block := some 2,
          current_block_number := none, pending_updates := [] }).1.event_buffer = [] :=
  ⟨(take_buffered_events_sorted_of_distinct_keys _ (by decide)).2.1,
    (take_buffered_events_sorted_of_distinct_keys _ (by decide)).2.2.1⟩

/-- C7 counterexample: with a pending block 5 holding one update, a
PoolUpdate for block 6 makes `read_and_process` fail with InvalidMessage,
but the pending batch is NOT discarded: the client still holds pending
block 5 and its pending update afterwards, contradicting the claim. -/
theorem invalid_update_keeps_pending_batch :
    (process_messages
        { mode := .Live, event_buffer := [], earliest_buffered_block := none,
          latest_buffered_block := none, current_block_number := some 5,
          pending_updates := [sampleEvent 5 0 0] }
        [.PoolUpdate (sampleEvent 6 0 0)]).2.2 =
      .error (.InvalidMessage
        "PoolUpdate block 6 does not match current block 5") ∧
    (process_messages
        { mode := .Live, event_buffer := [], earliest_buffered_block := none,
          latest_buffered_block := none, current_block_number := some 5,
          pending_updates := [sampleEvent 5 0 0] }
        [.PoolUpdate (sampleEvent 6 0 0)]).1.current_block_number = some 5 ∧
    (process_messages
        { mode := .Live, event_buffer := [], earliest_buffered_block := none,
          latest_buffered_block := none, current_block_number := some 5,
          pending_updates := [sampleEvent 5 0 0] }
        [.PoolUpdate (sampleEvent 6 0 0)]).1.pending_updates =
      [sampleEvent 5 0 0] :=
  ⟨rfl, rfl, rfl⟩

/-- C7 amended: when a PoolUpdate whose block number differs from the
current block arrives while InBlock, `read_and_process` returns
InvalidMessage and the pending batch is retained unchanged — the client
still holds the pending block and its pending updates (the source's early
return does not clear them). -/
theorem invalid_update_retains_state (c : UnixSocketClient) (cur : Nat)
    (e : PoolEvent) (hc : c.current_block_number = some cur)
    (hne : e.block_number ≠ cur) :
    process_messages c [.PoolUpdate e] =
      (c, [], .error (.InvalidMessage
        ("PoolUpdate block " ++ toString e.block_number ++
          " does not match current block " ++ toString cur))) := by
  simp only [process_messages]
  rw [hm_update_mismatch c cur e hc hne]

/-- Witness for C7 amended at a concrete InBlock state. -/
theorem invalid_update_retains_state_witness :
    process_messages
        { mode := .Live, event_buffer := [], earliest_buffered_block := none,
          latest_buffered_block := none, current_block_number := some 8,
          pending_updates := [sampleEvent 8 0 0] }
        [.PoolUpdate (sampleEvent 9 0 0)] =
      ({ mode := .Live, event_buffer := [], earliest_buffered_block := none,
          latest_buffered_block := none, current_block_number := some 8,
          pending_updates := [sampleEvent 8 0 0] }, [],
        .error (.InvalidMessage
          ("PoolUpdate block " ++ toString 9 ++
            " does not match current block " ++ toString 8))) :=
  invalid_update_retains_state _ 8 (sampleEvent 9 0 0) rfl (by decide)

theorem process_messages_append :
    ∀ (xs : List SocketMessage) (c c' : UnixSocketClient)
      (ws : List ClientWarning) (r : Option (List PoolEvent))
      (ys : List SocketMessage),
      process_messages c xs = (c', ws, .ok r) →
      process_messages c (xs ++ ys) =
        ((process_messages c' ys).1,
          ws ++ (process_messages c' ys).2.1,
          match (process_messages c' ys).2.2 with
          | .error err => .error err
          | .ok r' => .ok (lastSome r r'))
  | [], c, c', ws, r, ys, h => by
    simp only [process_messages, Prod.mk.injEq, Except.ok.injEq] at h
    obtain ⟨rfl, rfl, rfl⟩ := h
    simp only [List.nil_append]
    rcases hpm : process_messages c ys with ⟨a, b, r2⟩
    cases r2 with
    | error err => simp [lastSome]
    | ok r2 => cases r2 <;> simp [lastSome]
  | m :: xs, c, c', ws, r, ys, h => by
    simp only [process_messages, List.cons_append] at h ⊢
    rcases hhm : handle_message c m with ⟨c₁, ws₁, r₁⟩
    rw [hhm] at h
    cases r₁ with
    | error err => simp at h
    | ok r₁ =>
      dsimp only at h ⊢
      rcases hpm : process_messages c₁ xs with ⟨c₂, ws₂, r₂⟩
      rw [hpm] at h
      cases r₂ with
      | error err => simp at h
      | ok r₂ =>
        dsimp only at h
        simp only [Prod.mk.injEq, Except.ok.injEq] at h
        obtain ⟨rfl, rfl, rfl⟩ := h
        simp only [List.append_eq]
        rw [process_messages_append xs c₁ c₂ ws₂ r₂ ys hpm]
        rcases hq : process_messages c₂ ys with ⟨a, b, r3⟩
        cases r3 with
        | error err => simp
        | ok r3 =>
          dsimp only
          cases r3 with
          | none => simp [lastSome]
          | some v => simp [lastSome]

theorem process_updates :
    ∀ (evs : List PoolEvent) (c : UnixSocketClient) (bn : Nat),
      c.current_block_number = some bn →
      (∀ e ∈ evs, e.block_number = bn) →
      process_messages c (evs.map .PoolUpdate) =
        ({ c with pending_updates := c.pending_updates ++ evs }, [], .ok none)
  | [], c, bn, _, _ => by
    simp [process_messages]
  | e :: evs, c, bn, hc, he => by
    have he1 : e.block_number = bn := he e (by simp)
    have hrest : ∀ x ∈ evs, x.block_number = bn := fun x hx => he x (by simp [hx])
    simp only [List.map_cons, process_messages]
    rw [hm_update_match c bn e hc he1]
    dsimp only
    rw [process_updates evs { c with pending_updates := c.pending_updates ++ [e] }
      bn hc hrest]
    dsimp only [lastSome]
    simp [List.append_assoc]

theorem process_block (c : UnixSocketClient) (bn : Nat) (rv : Bool)
    (evs : List PoolEvent) (hc : c.current_block_number = none)
    (hm : c.mode = .Live) (he : ∀ e ∈ evs, e.block_number = bn) :
    process_messages c (block_script bn rv evs) =
      ({ c with current_block_number := none, pending_updates := [] },
        [], .ok (some evs)) := by
  unfold block_script
  simp only [process_messages]
  rw [hm_begin, hc]
  dsimp only
  have hupd := process_updates evs
    { c with current_block_number := some bn, pending_updates := [] } bn rfl he
  rw [process_messages_append (evs.map .PoolUpdate) _ _ _ _
    [SocketMessage.EndBlock bn evs.length] hupd]
  have hend := hm_end_live
    { c with current_block_number := some bn, pending_updates := [] ++ evs }
    bn evs.length rfl hm
  simp only [process_messages]
  rw [hend]
  dsimp only
  have hlen : ¬ (([] : List PoolEvent) ++ evs).length ≠ evs.length := by simp
  simp [hlen, lastSome]

theorem process_blocks :
    ∀ (blocks : List (Nat × Bool × List PoolEvent)) (c : UnixSocketClient),
      blocks ≠ [] → c.current_block_number = none → c.mode = .Live →
      (∀ blk ∈ blocks, ∀ e ∈ blk.2.2, e.block_number = blk.1) →
      (process_messages c
          ((blocks.map (fun blk => block_script blk.1 blk.2.1 blk.2.2)).flatten)).2.2 =
        .ok ((blocks.getLast?).map (fun blk => blk.2.2))
  | [], _, hne, _, _, _ => absurd rfl hne
  | [blk], c, _, hc, hm, hwf => by
    simp only [List.map_cons, List.map_nil, List.flatten_cons, List.flatten_nil,
      List.append_nil]
    rw [process_block c blk.1 blk.2.1 blk.2.2 hc hm (hwf blk (by simp))]
    simp
  | blk :: b2 :: rest, c, _, hc, hm, hwf => by
    have h1 := process_block c blk.1 blk.2.1 blk.2.2 hc hm (hwf blk (by simp))
    simp only [List.map_cons, List.flatten_cons]
    rw [process_messages_append (block_script blk.1 blk.2.1 blk.2.2) c _ _ _ _ h1]
    have hrec := process_blocks (b2 :: rest)
      { c with current_block_number := none, pending_updates := [] }
      (by simp) rfl hm (fun b hb => hwf b (by simp [hb]))
    simp only [List.map_cons, List.flatten_cons] at hrec
    rw [List.getLast?_cons_cons]
    rcases hlast : (b2 :: rest).getLast? with _ | last
    · exact absurd (List.getLast?_eq_none_iff.mp hlast) (by simp)
    · rw [hlast] at hrec
      rcases hpm : process_messages
          { c with current_block_number := none, pending_updates := [] }
          (block_script b2.1 b2.2.1 b2.2.2 ++
            ((rest.map (fun blk => block_script blk.1 blk.2.1 blk.2.2)).flatten)) with
        ⟨a, b, r3⟩
      rw [hpm] at hrec
      dsimp only at hrec ⊢
      rw [hrec]
      simp [lastSome]

/-- C10: If a single socket read in Live mode contains the complete
frames of two or more well-formed blocks, `read_and_process` returns only
the events of the last completed block; the events of every earlier block
completed in the same call are not returned to the caller. -/
theorem live_read_returns_last_block_only (c : UnixSocketClient)
    (blocks : List (Nat × Bool × List PoolEvent))
    (hm : c.mode = .Live) (hc : c.current_block_number = none)
    (hwf : ∀ blk ∈ blocks, ∀ e ∈ blk.2.2, e.block_number = blk.1)
    (hlen : 2 ≤ blocks.length) :
    (process_messages c
        ((blocks.map (fun blk => block_script blk.1 blk.2.1 blk.2.2)).flatten)).2.2 =
      .ok ((blocks.getLast?).map (fun blk => blk.2.2)) :=
  process_blocks blocks c (by intro h; subst h; simp at hlen) hc hm hwf

/-- Witness for C10: two complete blocks in one read; only the second
block's events come back. -/
theorem live_read_returns_last_block_only_witness :
    (process_messages
        { mode := .Live, event_buffer := [], earliest_buffered_block := none,
          latest_buffered_block := none, current_block_number := none,
          pending_updates := [] }
        (([((1 : Nat), false, [sampleEvent 1 0 0]),
            ((2 : Nat), false, [sampleEvent 2 0 0])].map
              (fun blk => block_script blk.1 blk.2.1 blk.2.2)).flatten)).2.2 =
      .ok (some [sampleEvent 2 0 0]) := by
  have h := live_read_returns_last_block_only
    { mode := .Live, event_buffer := [], earliest_buffered_block := none,
      latest_buffered_block := none, current_block_number := none,
      pending_updates := [] }
    [((1 : Nat), false, [sampleEvent 1 0 0]),
      ((2 : Nat), false, [sampleEvent 2 0 0])]
    rfl rfl (by decide) (by decide)
  simpa using h

/-! ### Event processor lemmas -/

theorem process_v2_swap_errors (s : EventProcessorStats)
    (reg : PoolArenaRegistry) (e : PoolEvent) (err : EventProcessorError)
    (h : (process_v2_swap s reg e).2 = .error err) :
    (process_v2_swap s reg e).1 = s ∧ errorsBump err = 0 := by
  unfold process_v2_swap at h ⊢
  cases h1 : get_v2_pool_location reg e.pool_address with
  | none => rw [h1] at h; simp at h; subst h; exact ⟨rfl, rfl⟩
  | some _ => rw [h1] at h; simp at h

theorem process_v3_swap_errors (s : EventProcessorStats)
    (reg : PoolArenaRegistry) (e : PoolEvent) (err : EventProcessorError)
    (h : (process_v3_swap s reg e).2 = .error err) :
    (process_v3_swap s reg e).1 = s ∧ errorsBump err = 0 := by
  unfold process_v3_swap at h ⊢
  cases h1 : e.sqrt_price_x96 with
  | none => rw [h1] at h; simp at h; subst h; exact ⟨rfl, rfl⟩
  | some _ =>
    rw [h1] at h
    simp only [] at h
    cases h2 : e.tick with
    | none => rw [h2] at h; simp at h; subst h; exact ⟨rfl, rfl⟩
    | some _ =>
      rw [h2] at h
      simp only [] at h
      cases h3 : e.liquidity with
      | none => rw [h3] at h; simp at h; subst h; exact ⟨rfl, rfl⟩
      | some _ =>
        rw [h3] at h
        simp only [] at h
        cases h4 : get_v3_pool_location reg e.pool_address with
        | none => rw [h4] at h; simp at h; subst h; exact ⟨rfl, rfl⟩
        | some _ => rw [h4] at h; simp at h

theorem process_v3_mint_errors (s : EventProcessorStats) (e : PoolEvent)
    (err : EventProcessorError) (h : (process_v3_mint s e).2 = .error err) :
    (process_v3_mint s e).1 = s ∧ errorsBump err = 0 := by
  unfold process_v3_mint at h ⊢
  cases h1 : e.tick_lower with
  | none => rw [h1] at h; simp at h; subst h; exact ⟨rfl, rfl⟩
  | some _ =>
    rw [h1] at h
    simp only [] at h
    cases h2 : e.tick_upper with
    | none => rw [h2] at h; simp at h; subst h; exact ⟨rfl, rfl⟩
    | some _ =>
      rw [h2] at h
      simp only [] at h
      cases h3 : e.liquidity_delta with
      | none => rw [h3] at h; simp at h; subst h; exact ⟨rfl, rfl⟩
      | some _ => rw [h3] at h; simp at h

theorem process_v3_burn_errors (s : EventProcessorStats) (e : PoolEvent)
    (err : EventProcessorError) (h : (process_v3_burn s e).2 = .error err) :
    (process_v3_burn s e).1 = s ∧ errorsBump err = 0 := by
  unfold process_v3_burn at h ⊢
  cases h1 : e.tick_lower with
  | none => rw [h1] at h; simp at h; subst h; exact ⟨rfl, rfl⟩
  | some _ =>
    rw [h1] at h
    simp only [] at h
    cases h2 : e.tick_upper with
    | none => rw [h2] at h; simp at h; subst h; exact ⟨rfl, rfl⟩
    | some _ =>
      rw [h2] at h
      simp only [] at h
      cases h3 : e.liquidity_delta with
      | none => rw [h3] at h; simp at h; subst h; exact ⟨rfl, rfl⟩
      | some _ => rw [h3] at h; simp at h

theorem process_v4_swap_errors (s : EventProcessorStats)
    (reg : PoolArenaRegistry) (e : PoolEvent) (err : EventProcessorError)
    (h : (process_v4_swap s reg e).2 = .error err) :
    (process_v4_swap s reg e).1 = s ∧ errorsBump err = 0 := by
  unfold process_v4_swap at h ⊢
  cases h0 : e.pool_id with
  | none => rw [h0] at h; simp at h; subst h; exact ⟨rfl, rfl⟩
  | some pid =>
    rw [h0] at h
    simp only [] at h
    cases h1 : e.sqrt_price_x96 with
    | none => rw [h1] at h; simp at h; subst h; exact ⟨rfl, rfl⟩
    | some _ =>
      rw [h1] at h
      simp only [] at h
      cases h2 : e.tick with
      | none => rw [h2] at h; simp at h; subst h; exact ⟨rfl, rfl⟩
      | some _ =>
        rw [h2] at h
        simp only [] at h
        cases h3 : e.liquidity with
        | none => rw [h3] at h; simp at h; subst h; exact ⟨rfl, rfl⟩
        | some _ =>
          rw [h3] at h
          simp only [] at h
          cases h4 : get_v4_pool_location reg pid with
          | none =>
            rw [h4] at h; simp at h; subst h
            refine ⟨?_, rfl⟩
            simp [h4]
          | some _ => rw [h4] at h; simp at h

theorem process_v4_modify_liquidity_errors (s : EventProcessorStats)
    (e : PoolEvent) (err : EventProcessorError)
    (h : (process_v4_modify_liquidity s e).2 = .error err) :
    (process_v4_modify_liquidity s e).1 = s ∧ errorsBump err = 0 := by
  unfold process_v4_modify_liquidity at h ⊢
  cases h0 : e.pool_id with
  | none => rw [h0] at h; simp at h; subst h; exact ⟨rfl, rfl⟩
  | some _ =>
    rw [h0] at h
    simp only [] at h
    cases h1 : e.tick_lower with
    | none => rw [h1] at h; simp at h; subst h; exact ⟨rfl, rfl⟩
    | some _ =>
      rw [h1] at h
      simp only [] at h
      cases h2 : e.tick_upper with
      | none => rw [h2] at h; simp at h; subst h; exact ⟨rfl, rfl⟩
      | some _ =>
        rw [h2] at h
        simp only [] at h
        cases h3 : e.liquidity_delta with
        | none => rw [h3] at h; simp at h; subst h; exact ⟨rfl, rfl⟩
        | some _ => rw [h3] at h; simp at h

/-- C6 counterexample: a non-revert v3 Swap with `sqrt_price_x96` missing
fails with `InvalidEventData`, yet the errors counter is NOT incremented —
the result statistics equal the input statistics. -/
theorem failed_event_without_error_increment :
    (process_event {} ⟨[], [], []⟩
        { sampleEvent 4 0 0 with protocol := "uniswap_v3" }).2 =
      .error (.InvalidEventData "Missing sqrt_price_x96") ∧
    (process_event {} ⟨[], [], []⟩
        { sampleEvent 4 0 0 with protocol := "uniswap_v3" }).1.errors = 0 :=
  ⟨rfl, rfl⟩

/-- C6 amended: when `process_event` fails, the errors counter is
incremented by exactly one if the failure is `UnsupportedProtocol` or
`UnsupportedEventType`, and is left unchanged when the failure is
`InvalidEventData` (missing required field) or `PoolNotFound`. -/
theorem errors_counter_increment_exact (s : EventProcessorStats)
    (reg : PoolArenaRegistry) (e : PoolEvent) (err : EventProcessorError)
    (h : (process_event s reg e).2 = .error err) :
    (process_event s reg e).1.errors = s.errors + errorsBump err := by
  by_cases hrev : e.is_revert
  · rw [process_event, if_pos hrev] at h
    simp at h
  · rw [process_event, if_neg hrev] at h ⊢
    by_cases hp2 : e.protocol = "uniswap_v2"
    · rw [if_pos hp2] at h ⊢
      rw [process_v2_event] at h ⊢
      by_cases ht1 : e.event_type = "Swap"
      · rw [if_pos ht1] at h ⊢
        obtain ⟨h1, h2⟩ := process_v2_swap_errors s reg e err h
        rw [h1, h2]; simp
      · rw [if_neg ht1] at h ⊢
        by_cases ht2 : e.event_type = "Mint"
        · rw [if_pos ht2] at h
          simp [process_v2_mint] at h
        · rw [if_neg ht2] at h ⊢
          by_cases ht3 : e.event_type = "Burn"
          · rw [if_pos ht3] at h
            simp [process_v2_burn] at h
          · rw [if_neg ht3] at h ⊢
            simp only [Prod.snd] at h
            simp at h
            subst h
            simp [errorsBump]
    · rw [if_neg hp2] at h ⊢
      by_cases hp3 : e.protocol = "uniswap_v3"
      · rw [if_pos hp3] at h ⊢
        rw [process_v3_event] at h ⊢
        by_cases ht1 : e.event_type = "Swap"
        · rw [if_pos ht1] at h ⊢
          obtain ⟨h1, h2⟩ := process_v3_swap_errors s reg e err h
          rw [h1, h2]; simp
        · rw [if_neg ht1] at h ⊢
          by_cases ht2 : e.event_type = "Mint"
          · rw [if_pos ht2] at h ⊢
            obtain ⟨h1, h2⟩ := process_v3_mint_errors s e err h
            rw [h1, h2]; simp
          · rw [if_neg ht2] at h ⊢
            by_cases ht3 : e.event_type = "Burn"
            · rw [if_pos ht3] at h ⊢
              obtain ⟨h1, h2⟩ := process_v3_burn_errors s e err h
              rw [h1, h2]; simp
            · rw [if_neg ht3] at h ⊢
              simp at h
              subst h
              simp [errorsBump]
      · rw [if_neg hp3] at h ⊢
        by_cases hp4 : e.protocol = "uniswap_v4"
        · rw [if_pos hp4] at h ⊢
          rw [process_v4_event] at h ⊢
          by_cases ht1 : e.event_type = "Swap"
          · rw [if_pos ht1] at h ⊢
            obtain ⟨h1, h2⟩ := process_v4_swap_errors s reg e err h
            rw [h1, h2]; simp
          · rw [if_neg ht1] at h ⊢
            by_cases ht2 : e.event_type = "ModifyLiquidity"
            · rw [if_pos ht2] at h ⊢
              obtain ⟨h1, h2⟩ := process_v4_modify_liquidity_errors s e err h
              rw [h1, h2]; simp
            · rw [if_neg ht2] at h ⊢
              simp at h
              subst h
              simp [errorsBump]
        · rw [if_neg hp4] at h ⊢
          simp at h
          subst h
          simp [errorsBump]

/-- Witness for C6 amended: an unknown protocol bumps the counter by one,
a missing field leaves it untouched. -/
theorem errors_counter_increment_exact_witness :
    (process_event {} ⟨[], [], []⟩
        { sampleEvent 4 0 0 with protocol := "sushi_v1" }).1.errors = 0 + 1 ∧
    (process_event {} ⟨[], [], []⟩
        { sampleEvent 4 0 0 with
            protocol := "uniswap_v3", event_type := "Mint" }).1.errors = 0 + 0 :=
  ⟨errors_counter_increment_exact {} ⟨[], [], []⟩
      { sampleEvent 4 0 0 with protocol := "sushi_v1" }
      (.UnsupportedProtocol "sushi_v1") rfl,
    errors_counter_increment_exact {} ⟨[], [], []⟩
      { sampleEvent 4 0 0 with protocol := "uniswap_v3", event_type := "Mint" }
      (.InvalidEventData "Missing tick_lower") rfl⟩

/-- C8 (evaluating the code at the failing input): a non-revert v2 Swap
with `amount0 = -5`, `amount1 = +5` on an admitted pool whose reserves
are `(100, 100)` returns `Ok` with only `v2_swaps_processed` bumped — the
source's `process_v2_swap` resolves the pool location and then hits the
`TODO: Implement actual reserve update logic` stub, performing no
registry write at all, so the reserves stay `(100, 100)` instead of the
documented `(95, 105)`. -/
theorem v2_swap_does_not_update_reserves :
    process_event {}
        ⟨[⟨1, ⟨0, 0⟩, 100, 100⟩], [], []⟩
        (sampleEvent 11 0 0) =
      ({ v2_swaps_processed := 1 }, .ok ()) ∧
    (sampleEvent 11 0 0).amount0 = -5 ∧ (sampleEvent 11 0 0).amount1 = 5 :=
  ⟨rfl, rfl, rfl⟩

/-- C9: For every event with `is_revert = true`, `process_event` returns
`Ok` regardless of protocol, event type or missing optional fields, the
registry is not consulted (the result is the same for every registry
argument) or mutated, and of the statistics only `reverts_processed`
changes, incremented by exactly one. -/
theorem revert_event_only_bumps_reverts (s : EventProcessorStats)
    (reg : PoolArenaRegistry) (e : PoolEvent) (h : e.is_revert = true) :
    process_event s reg e =
      ({ s with reverts_processed := s.reverts_processed + 1 }, .ok ()) := by
  rw [process_event, if_pos h]

/-- Witness for C9: a revert event with unknown protocol and a missing
field still returns `Ok` and only bumps the revert counter. -/
theorem revert_event_only_bumps_reverts_witness :
    process_event {} ⟨[], [], []⟩
        { sampleEvent 4 0 0 with protocol := "sushi_v1", is_revert := true } =
      ({ reverts_processed := 1 }, .ok ()) :=
  revert_event_only_bumps_reverts {} ⟨[], [], []⟩
    { sampleEvent 4 0 0 with protocol := "sushi_v1", is_revert := true } rfl

/-- C5: In cold-start phase 3, with the scrape reference block recorded
in phase 2, every buffered event with `block_number ≤ reference_block` is
filtered out and never applied; exactly the events with `block_number >
reference_block` are passed to event application, in order. -/
theorem phase_3_filters_stale_events (st : StartupCoordinator) (r : Nat)
    (h : st.scrape_reference_block = some r) :
    (phase_3_replay_events st).2 =
        (take_buffered_events st.socket_client).2.filter
          (fun e => r < e.block_number) ∧
      (∀ e ∈ (phase_3_replay_events st).2, r < e.block_number) ∧
      (∀ e ∈ (take_buffered_events st.socket_client).2, e.block_number ≤ r →
        e ∉ (phase_3_replay_events st).2) := by
  have hfil : (phase_3_replay_events st).2 =
      (take_buffered_events st.socket_client).2.filter
        (fun e => r < e.block_number) := by
    simp only [phase_3_replay_events, h, Option.getD_some]
  refine ⟨hfil, ?_, ?_⟩
  · intro e he
    rw [hfil] at he
    have := List.of_mem_filter he
    simpa using this
  · intro e _ hle hmem
    rw [hfil] at hmem
    have := List.of_mem_filter hmem
    simp at this
    omega

/-- Witness for C5: with reference block 10, a buffered event at block 9
is dropped and one at block 11 is applied. -/
theorem phase_3_filters_stale_events_witness :
    (phase_3_replay_events
        { socket_client :=
            { mode := .Buffering 100, event_buffer :=
                [sampleEvent 9 0 0, sampleEvent 11 0 0],
              earliest_buffered_block := some 9,
              latest_buffered_block := some 11,
              current_block_number := none, pending_updates := [] },
          scrape_reference_block := some 10,
          events_buffered := 0, events_replayed := 0 }).2 =
      (take_buffered_events
          { mode := .Buffering 100, event_buffer :=
              [sampleEvent 9 0 0, sampleEvent 11 0 0],
            earliest_buffered_block := some 9,
            latest_buffered_block := some 11,
            current_block_number := none, pending_updates := [] }).2.filter
        (fun e => 10 < e.block_number) ∧
    ∀ e ∈ (phase_3_replay_events
        { socket_client :=
            { mode := .Buffering 100, event_buffer :=
                [sampleEvent 9 0 0, sampleEvent 11 0 0],
              earliest_buffered_block := some 9,
              latest_buffered_block := some 11,
              current_block_number := none, pending_updates := [] },
          scrape_reference_block := some 10,
          events_buffered := 0, events_replayed := 0 }).2,
      10 < e.block_number :=
  ⟨(phase_3_filters_stale_events _ 10 rfl).1,
    (phase_3_filters_stale_events _ 10 rfl).2.1⟩
